import Mathlib

/-!
Verification of the asynchronous execution core of the gitterm repository:
the single-flight job scheduler (async_utils/src/lib.rs), the keyed status
fetch cache (asyncgit/src/status2.rs) and the push request / progress relay
(asyncgit/src/push.rs), shallowly embedded as executable state machines.
-/

namespace AsyncUtils

/-- State of `AsyncSingleJob<J, T>` (async_utils/src/lib.rs) together with the
bookkeeping needed to track the worker pool: `next` and `last` are the two
`Arc<Mutex<Option<J>>>` slots, `pendingHeld` is whether the `pending` mutex is
currently held (it is held for the whole guarded section of `run_job`),
`dispatched` are closures handed to `rayon_core::spawn` that have not yet
acquired the `pending` mutex, `running` are workers currently inside the
`pending`-guarded section, `executed` records completed `task.run()` calls in
order, `notificationsSent` counts successful `sender.send(notification)` calls
and `sendFailures` counts failed sends (each such failure becomes the `Err`
that the closure in `check_for_job` logs). -/
structure Sched (J : Type) where
  next : Option J
  last : Option J
  pendingHeld : Bool
  dispatched : List J
  running : List J
  executed : List J
  notificationsSent : Nat
  sendFailures : Nat

/-- `AsyncSingleJob::new`: both slots empty, mutex free, nothing dispatched. -/
def initial {J : Type} : Sched J :=
  ⟨none, none, false, [], [], [], 0, 0⟩

/-- `is_pending`: `self.pending.try_lock().is_err()` — true iff the `pending`
mutex is currently held, i.e. a job is executing. -/
def is_pending {J : Type} (s : Sched J) : Bool :=
  s.pendingHeld

/-- `schedule_next`: `*next = Some(task)`. -/
def schedule_next {J : Type} (s : Sched J) (task : J) : Sched J :=
  { s with next := some task }

/-- `take_next`: `next.take()`. -/
def take_next {J : Type} (s : Sched J) : Option J × Sched J :=
  (s.next, { s with next := none })

/-- `cancel`: clears `next` and returns whether something was actually
cleared; touches nothing else. -/
def cancel {J : Type} (s : Sched J) : Bool × Sched J :=
  match s.next with
  | some _ => (true, { s with next := none })
  | none => (false, s)

/-- `take_last`: `last.take()`. -/
def take_last {J : Type} (s : Sched J) : Option J × Sched J :=
  (s.last, { s with last := none })

/-- `check_for_job`: if `is_pending()` returns false; otherwise `take_next()`
and, when a task was queued, hand it to `rayon_core::spawn` (the closure joins
`dispatched` and will run `run_job` once it acquires the mutex) and return
true. -/
def check_for_job {J : Type} (s : Sched J) : Bool × Sched J :=
  if s.pendingHeld then (false, s)
  else
    match s.next with
    | some task =>
      (true, { s with next := none, dispatched := s.dispatched ++ [task] })
    | none => (false, s)

/-- `spawn`: `schedule_next(task)` then `check_for_job()`. -/
def spawn {J : Type} (s : Sched J) (task : J) : Bool × Sched J :=
  check_for_job (schedule_next s task)

/-- Entry of `run_job` on a dispatched worker: `self.pending.lock()` blocks
until the mutex is free, so the transition is a no-op while `pendingHeld`;
otherwise the first dispatched worker enters the guarded section. -/
def start_run {J : Type} (s : Sched J) : Sched J :=
  match s.dispatched with
  | task :: rest =>
    if s.pendingHeld then s
    else { s with dispatched := rest,
                  running := task :: s.running,
                  pendingHeld := true }
  | [] => s

/-- Body and exit of `run_job`: inside the guarded section `task.run()` runs
to completion, `last` is overwritten with the task, and
`sender.send(self.notification)` is attempted.  Leaving the scope releases
`pending` — also on the early return that the error propagation operator takes
when the send fails.  Only after a successful send does `run_job` reach its
trailing `check_for_job()`; on a send failure `run_job` returns `Err`, which
the spawning closure logs, and no `check_for_job()` happens. -/
def finish_run {J : Type} (s : Sched J) (sendOk : Bool) : Sched J :=
  match s.running with
  | task :: rest =>
    let s1 : Sched J :=
      { s with
          running := rest,
          executed := s.executed ++ [task],
          last := some task,
          pendingHeld := false,
          notificationsSent := s.notificationsSent + (if sendOk then 1 else 0),
          sendFailures := s.sendFailures + (if sendOk then 0 else 1) }
    if sendOk then (check_for_job s1).2 else s1
  | [] => s

/-- Interleaved small-step semantics of one `AsyncSingleJob` under concurrent
callers and workers.  Each constructor corresponds to one critical section of
the source.  `dispatch` deliberately omits the `is_pending` probe: in the
source the probe and `take_next` are separate lock acquisitions, so between
them another worker may acquire `pending`; allowing a dispatch at any moment
over-approximates that race.  Mutual exclusion is enforced solely by the
`pending` mutex, modelled as the guard of `acquire`. -/
inductive Step {J : Type} : Sched J → Sched J → Prop
  | schedule (s : Sched J) (task : J) :
      Step s { s with next := some task }
  | cancelNext (s : Sched J) :
      Step s { s with next := none }
  | dispatch (s : Sched J) (task : J) :
      s.next = some task →
      Step s { s with next := none, dispatched := s.dispatched ++ [task] }
  | acquire (s : Sched J) (l1 : List J) (task : J) (l2 : List J) :
      s.dispatched = l1 ++ task :: l2 →
      s.pendingHeld = false →
      Step s { s with
                 dispatched := l1 ++ l2,
                 running := task :: s.running,
                 pendingHeld := true }
  | finish (s : Sched J) (task : J) (rest : List J) (sendOk : Bool) :
      s.running = task :: rest →
      Step s { s with
                 running := rest,
                 executed := s.executed ++ [task],
                 last := some task,
                 pendingHeld := false,
                 notificationsSent :=
                   s.notificationsSent + (if sendOk then 1 else 0),
                 sendFailures := s.sendFailures + (if sendOk then 0 else 1) }
  | takeLastStep (s : Sched J) :
      Step s { s with last := none }

/-- States reachable from a freshly constructed scheduler. -/
inductive Reachable {J : Type} : Sched J → Prop
  | init : Reachable initial
  | step {s t : Sched J} : Reachable s → Step s t → Reachable t

/-- The mutual-exclusion invariant: at most one worker is ever inside the
`pending`-guarded section of `run_job`, and the mutex is held exactly while
one is. -/
def MutexInv {J : Type} (s : Sched J) : Prop :=
  s.running.length ≤ 1 ∧ (s.pendingHeld = false → s.running = [])

/-- Applying `spawn` for each job of a list in order, keeping only the state. -/
def spawnAll {J : Type} (s : Sched J) (js : List J) : Sched J :=
  js.foldl (fun t j => (spawn t j).2) s

end AsyncUtils

namespace Status2

/-- asyncgit/src/sync/status.rs `StatusType`. -/
inductive StatusType
  | WorkingDir
  | Stage
  | Both
deriving DecidableEq

/-- asyncgit/src/status2.rs `StatusParams`; the tick is the caller-supplied
monotone counter baked into the fingerprint. -/
structure StatusParams where
  tick : Nat
  status_type : StatusType
  include_untracked : Bool
deriving DecidableEq

/-- asyncgit/src/status2.rs `struct Request<R, A>(R, Option<A>)`. -/
structure Request (R A : Type) where
  fst : R
  snd : Option A

/-- State of `AsyncStatus2` (asyncgit/src/status2.rs), generic over the value
type (`Status2` in the source).  `current` is `Request<u64, Status2>` with the
u64 hash modelled as `Nat`; `last` the always-renderable value; `inFlight`
records the `hash_request` of each computation handed to `rayon_core::spawn`
that has not yet written back.  `writer` is a ghost history variable (not a
source field): the `(hash_request, value)` of the completion that last set
`current.snd`, reset whenever `current.snd` is reset to `none`; it lets the
staleness-guard invariant be stated.  The `pending` counter is omitted: no
claim mentions `is_pending` of this cache. -/
structure CacheState (V : Type) where
  current : Request Nat V
  last : V
  inFlight : List Nat
  writer : Option (Nat × V)

/-- `AsyncStatus2::new` with the default value (`Status2::default()` in the
source) made explicit. -/
def init {V : Type} (v0 : V) : CacheState V :=
  ⟨⟨0, none⟩, v0, [], none⟩

/-- `AsyncStatus2::fetch` (status2.rs lines 76-121): compute
`hash_request = hash(&params)`; if it equals `current.0` return
`current.1.clone()` without starting any work; otherwise set
`current = (hash_request, None)` and dispatch exactly one background
computation for these parameters, returning `None`.  The hash function of the
source (`crate::hash`, a std hasher) is an arbitrary deterministic function,
taken here as a parameter. -/
def fetch {V : Type} (hash : StatusParams → Nat) (s : CacheState V)
    (params : StatusParams) : Option V × CacheState V :=
  let hash_request := hash params
  if s.current.fst = hash_request then (s.current.snd, s)
  else
    (none, { s with
               current := ⟨hash_request, none⟩,
               inFlight := s.inFlight ++ [hash_request],
               writer := none })

/-- Write-back of `AsyncStatus2::fetch_helper` (status2.rs lines 123-146),
given the computed result: `current.1` is set only when `current.0` still
equals this computation's `hash_request`; `last` is overwritten
unconditionally. -/
def fetch_helper {V : Type} (s : CacheState V) (hash_request : Nat) (res : V) :
    CacheState V :=
  let s1 :=
    if s.current.fst = hash_request
    then { s with
             current := ⟨s.current.fst, some res⟩,
             writer := some (hash_request, res) }
    else s
  { s1 with last := res }

/-- Interleaved semantics of the cache: a `fetch` call, or the completion of
one dispatched background computation (which performs the `fetch_helper`
write-back and leaves the in-flight set). -/
inductive CStep {V : Type} (hash : StatusParams → Nat) :
    CacheState V → CacheState V → Prop
  | fetchStep (s : CacheState V) (params : StatusParams) :
      CStep hash s (fetch hash s params).2
  | completeStep (s : CacheState V) (l1 : List Nat) (h : Nat) (l2 : List Nat)
      (res : V) :
      s.inFlight = l1 ++ h :: l2 →
      CStep hash s { fetch_helper s h res with inFlight := l1 ++ l2 }

/-- Cache states reachable from a freshly constructed `AsyncStatus2`. -/
inductive CReachable {V : Type} (hash : StatusParams → Nat) (v0 : V) :
    CacheState V → Prop
  | init : CReachable hash v0 (init v0)
  | step {s t : CacheState V} :
      CReachable hash v0 s → CStep hash s t → CReachable hash v0 t

/-- The `expect` messages by which the worker closure of
`AsyncStatus2::fetch` panics. -/
inductive PanicMsg
  | fetchFailed
  | sendFailed
deriving DecidableEq

/-- Outcome of the closure spawned by `AsyncStatus2::fetch` (status2.rs lines
101-118): either it completes normally, or it panics via `expect` — writes
made to the shared state before the panic persist. -/
inductive WorkerOutcome (V : Type)
  | completed (c : CacheState V)
  | panicked (msg : PanicMsg) (c : CacheState V)

/-- The worker closure of `AsyncStatus2::fetch`: it runs `fetch_helper`
(whose own result is `Err` exactly when `get_status` — the blocking repository
scan — fails) under `.expect("failed to fetch status")`, then sends
`AsyncNotification::Status` under `.expect("error sending status")`.  `res`
is the outcome of `get_status`; `sendOk` whether the channel send succeeds.
A failing `get_status` therefore panics the worker before any write-back; a
failing send panics it after the write-back. -/
def status_worker {V : Type} (c : CacheState V) (hash_request : Nat)
    (res : Except String V) (sendOk : Bool) : WorkerOutcome V :=
  match res with
  | .error _ => .panicked .fetchFailed c
  | .ok v =>
    let c1 := fetch_helper c hash_request v
    if sendOk then .completed c1 else .panicked .sendFailed c1

/-- The staleness-guard invariant: whenever `current.1` holds a value, that
value was written back by a completion whose fingerprint equalled `current.0`
at write-back time — and `current.0` has not changed since (a change would
have reset `current.1`). -/
def StaleGuardInv {V : Type} (s : CacheState V) : Prop :=
  ∀ v, s.current.snd = some v → s.writer = some (s.current.fst, v)

/-- A sample repository-access error message, used to exercise the failing
branch of `get_status`. -/
def repoErrMsg : String :=
  "could not open repository"

end Status2

namespace Push

/-- git2 `PackBuilderStage` as matched in asyncgit/src/push.rs. -/
inductive PackBuilderStage
  | AddingObjects
  | Deltafication
deriving DecidableEq

/-- asyncgit/src/sync/remotes.rs `ProgressNotification` (commit ids and the
remote-ref name modelled as naturals / strings). -/
inductive ProgressNotification
  | UpdateTips (name : String) (a : Nat) (b : Nat)
  | Transfer (objects : Nat) (total_objects : Nat)
  | PushTransfer (current : Nat) (total : Nat) (bytes : Nat)
  | Packing (stage : PackBuilderStage) (total : Nat) (current : Nat)
  | Done
deriving DecidableEq

/-- asyncgit/src/push.rs `PushRequest`. -/
structure PushRequest where
  remote : String
  branch : String
deriving DecidableEq

/-- asyncgit/src/push.rs `PushState`. -/
structure PushState where
  request : PushRequest
deriving DecidableEq

/-- State of `AsyncPush` (asyncgit/src/push.rs) plus bookkeeping of the
spawned worker threads: `state` is the request slot, `last_result` the stored
outcome of the most recently completed push (`None` = success or never
pushed, `Some msg` = failure message), `progress` the latest relayed progress
event, and `runningThreads` the worker threads spawned by `request` that have
not yet finished. -/
structure AsyncPushState where
  state : Option PushState
  last_result : Option String
  progress : Option ProgressNotification
  runningThreads : List PushRequest
deriving DecidableEq

/-- `AsyncPush::new`. -/
def pushInit : AsyncPushState :=
  ⟨none, none, none, []⟩

/-- `AsyncPush::is_pending`: whether the request slot is occupied. -/
def push_is_pending (s : AsyncPushState) : Bool :=
  s.state.isSome

/-- `AsyncPush::last_result`: a clone of the stored result. -/
def last_result (s : AsyncPushState) : Option String :=
  s.last_result

/-- The `Error::Generic("pending request")` message of `set_request`. -/
def pendingRequestMsg : String :=
  "pending request"

/-- `AsyncPush::set_request` (push.rs lines 206-218): errors when a request
is already pending, otherwise occupies the slot. -/
def set_request (s : AsyncPushState) (params : PushRequest) :
    Except String AsyncPushState :=
  match s.state with
  | some _ => .error pendingRequestMsg
  | none => .ok { s with state := some ⟨params⟩ }

/-- `AsyncPush::clear_request`. -/
def clear_request (s : AsyncPushState) : AsyncPushState :=
  { s with state := none }

/-- `AsyncPush::set_result` (push.rs lines 244-259): a successful push stores
`None`, a failed one stores `Some` of the error's message; always
overwrites. -/
def set_result (s : AsyncPushState) (res : Except String Unit) :
    AsyncPushState :=
  { s with last_result :=
      match res with
      | .ok _ => none
      | .error e => some e }

/-- `AsyncPush::request` (push.rs lines 122-169): returns early doing nothing
when `is_pending`; otherwise `set_request`, reset progress and spawn the
worker thread.  The boolean reports whether a push was actually started.  The
`set_request` error branch is kept from the source's double check; under the
`is_pending` guard it cannot fire. -/
def request (s : AsyncPushState) (params : PushRequest) :
    AsyncPushState × Bool :=
  if s.state.isSome then (s, false)
  else
    match set_request s params with
    | .error _ => (s, false)
    | .ok s1 =>
      ({ s1 with
           progress := none,
           runningThreads := s1.runningThreads ++ [params] }, true)

/-- Interleaved semantics of one `AsyncPush`: a `request` call, a progress
write by the relay thread of a running worker, or a worker thread finishing
(`set_result`, then `clear_request`, then the completion notification). -/
inductive PStep : AsyncPushState → AsyncPushState → Prop
  | requestStep (s : AsyncPushState) (params : PushRequest) :
      PStep s (request s params).1
  | progressStep (s : AsyncPushState) (p : ProgressNotification) :
      s.runningThreads ≠ [] →
      PStep s { s with progress := some p }
  | workerDone (s : AsyncPushState) (p : PushRequest) (rest : List PushRequest)
      (res : Except String Unit) :
      s.runningThreads = p :: rest →
      PStep s { set_result s res with
                  state := none,
                  runningThreads := rest }

/-- Push states reachable from a freshly constructed `AsyncPush`. -/
inductive PReachable : AsyncPushState → Prop
  | init : PReachable pushInit
  | step {s t : AsyncPushState} : PReachable s → PStep s t → PReachable t

/-- Folding a sequence of completed push outcomes through `set_result`, in
completion order. -/
def run_pushes (s : AsyncPushState) (results : List (Except String Unit)) :
    AsyncPushState :=
  results.foldl set_result s

/-- Observable events of the push worker and its relay thread, in wall-clock
order. -/
inductive PushEvent
  | progressWrite (p : ProgressNotification)
  | progressNotify
  | relayExit
  | resultStored
  | requestCleared
  | completionNotify
deriving DecidableEq

/-- The relay loop of `AsyncPush::spawn_receiver_thread` (push.rs lines
171-204): each received non-terminal event is written into the shared
progress slot and followed by one `AsyncNotification::Push`; on `Done` the
loop breaks; a channel error (sender dropped, modelled by the list running
out) also breaks. -/
def relay_trace : List ProgressNotification → List PushEvent
  | [] => [PushEvent.relayExit]
  | ProgressNotification.Done :: _ => [PushEvent.relayExit]
  | e :: rest =>
    PushEvent.progressWrite e :: PushEvent.progressNotify :: relay_trace rest

/-- The worker thread body of `AsyncPush::request`, linearized: `sync::push`
emits `events` on the progress channel, the worker then sends the terminal
`Done`, joins the relay thread (a barrier: every relay event precedes the
join's return), and only then stores the result, clears the request slot and
sends the completion notification. -/
def worker_trace (events : List ProgressNotification) : List PushEvent :=
  relay_trace (events ++ [ProgressNotification.Done]) ++
    [PushEvent.resultStored, PushEvent.requestCleared,
     PushEvent.completionNotify]

/-- The push-exclusion invariant: at most one worker thread exists per
`AsyncPush`, and none while the request slot is empty. -/
def PushExclusionInv (s : AsyncPushState) : Prop :=
  s.runningThreads.length ≤ 1 ∧ (s.state = none → s.runningThreads = [])

/-- A sample remote name. -/
def originRemote : String :=
  "origin"

/-- A sample branch name. -/
def masterBranch : String :=
  "master"

/-- A sample push request. -/
def sampleRequest : PushRequest :=
  ⟨originRemote, masterBranch⟩

/-- A sample push error message. -/
def pushErrMsg : String :=
  "network unreachable"

end Push

namespace AsyncUtils

/-- While the `pending` mutex is held, `spawn` overwrites `next` and returns
false. -/
theorem spawn_busy {J : Type} (s : Sched J) (j : J) (h : s.pendingHeld = true) :
    spawn s j = (false, { s with next := some j }) := by
  simp [spawn, schedule_next, check_for_job, h]

/-- A burst of `spawn` calls while the mutex is held leaves exactly the final
job in `next`. -/
theorem spawnAll_busy_last {J : Type} (js : List J) :
    ∀ (jl : J) (s : Sched J), s.pendingHeld = true →
      spawnAll s (js ++ [jl]) = { s with next := some jl } := by
  induction js with
  | nil =>
    intro jl s h
    simp [spawnAll, spawn_busy s jl h]
  | cons j js ih =>
    intro jl s h
    have hstep : spawnAll s ((j :: js) ++ [jl])
        = spawnAll { s with next := some j } (js ++ [jl]) := by
      simp [spawnAll, spawn_busy s j h]
    rw [hstep, ih jl { s with next := some j } h]

/-- `MutexInv` holds of a fresh scheduler. -/
theorem mutexInv_initial {J : Type} : MutexInv (initial : Sched J) :=
  ⟨by simp [initial], fun _ => rfl⟩

/-- Every interleaved step preserves `MutexInv`: only `acquire` makes a worker
enter the guarded section, and its `pendingHeld = false` guard — the mutex —
forces the section to have been empty. -/
theorem mutexInv_step {J : Type} {s t : Sched J} (h : Step s t)
    (ih : MutexInv s) : MutexInv t := by
  cases h with
  | schedule task => exact ih
  | cancelNext => exact ih
  | dispatch task hn => exact ih
  | takeLastStep => exact ih
  | acquire l1 task l2 hd hp =>
    have hrun : s.running = [] := ih.2 hp
    exact ⟨by simp [hrun], by intro hfalse; exact absurd hfalse (by simp)⟩
  | finish task rest sendOk hr =>
    have hlen : (task :: rest).length ≤ 1 := hr ▸ ih.1
    have hrest : rest = [] := by
      cases rest with
      | nil => rfl
      | cons a l => simp at hlen
    exact ⟨by simp [hrest], by intro _; simp [hrest]⟩

/-- Every reachable scheduler state satisfies the mutual-exclusion
invariant. -/
theorem mutexInv_of_reachable {J : Type} {s : Sched J} (h : Reachable s) :
    MutexInv s := by
  induction h with
  | init => exact mutexInv_initial
  | step _ hstep ih => exact mutexInv_step hstep ih

end AsyncUtils

open AsyncUtils Status2 Push

/-- Claim C1: with the scheduler idle, `spawn(J1)` returns true and J1 starts;
the `spawn(J2)` and `spawn(J3)` issued while J1 executes each return false and
overwrite the single queued `next` slot, so after J1 finishes only J3 runs:
exactly two executions occur, in the order J1 then J3, and J2 never runs. -/
theorem coalescing_single_flight {J : Type} (j1 j2 j3 : J)
    (h21 : j2 ≠ j1) (h23 : j2 ≠ j3) :
    (spawn (initial : Sched J) j1).1 = true ∧
    (let s2 := start_run (spawn (initial : Sched J) j1).2
     let r2 := spawn s2 j2
     let r3 := spawn r2.2 j3
     let s7 := finish_run (start_run (finish_run r3.2 true)) true
     r2.1 = false ∧ r2.2.next = some j2 ∧
     r3.1 = false ∧ r3.2.next = some j3 ∧
     s7.executed = [j1, j3] ∧ j2 ∉ s7.executed ∧
     s7.next = none ∧ s7.dispatched = [] ∧ s7.running = [] ∧
     s7.pendingHeld = false) := by
  refine ⟨rfl, rfl, rfl, rfl, rfl, rfl, ?_, rfl, rfl, rfl, rfl⟩
  show j2 ∉ [j1, j3]
  simp [h21, h23]

/-- Witness for C1 at the concrete jobs 1, 2, 3. -/
theorem coalescing_single_flight_witness :
    (spawn (initial : Sched Nat) 1).1 = true ∧
    (let s2 := start_run (spawn (initial : Sched Nat) 1).2
     let r2 := spawn s2 2
     let r3 := spawn r2.2 3
     let s7 := finish_run (start_run (finish_run r3.2 true)) true
     r2.1 = false ∧ r2.2.next = some 2 ∧
     r3.1 = false ∧ r3.2.next = some 3 ∧
     s7.executed = [1, 3] ∧ 2 ∉ s7.executed ∧
     s7.next = none ∧ s7.dispatched = [] ∧ s7.running = [] ∧
     s7.pendingHeld = false) :=
  coalescing_single_flight 1 2 3 (by decide) (by decide)

/-- Claim C9: `cancel` clears a queued-but-not-started `next` job, returning
true exactly when something was cleared and touching nothing else; in the
scenario spawn(J1) starts, spawn(J2) queues, cancel() returns true, J2 never
executes and exactly one execution occurs; a further `cancel` on the empty
queue returns false. -/
theorem cancel_only_queued {J : Type} (j1 j2 : J) (h : j2 ≠ j1) :
    (∀ s : Sched J,
       (cancel s).1 = s.next.isSome ∧
       (cancel s).2.next = none ∧
       (cancel s).2.running = s.running ∧
       (cancel s).2.dispatched = s.dispatched ∧
       (cancel s).2.executed = s.executed ∧
       (cancel s).2.pendingHeld = s.pendingHeld) ∧
    (let s2 := start_run (spawn (initial : Sched J) j1).2
     let r2 := spawn s2 j2
     let c := cancel r2.2
     let s5 := finish_run c.2 true
     (spawn (initial : Sched J) j1).1 = true ∧
     r2.1 = false ∧ c.1 = true ∧ c.2.next = none ∧ c.2.running = [j1] ∧
     s5.executed = [j1] ∧ j2 ∉ s5.executed ∧ s5.next = none ∧
     s5.dispatched = [] ∧ s5.running = [] ∧ (cancel s5).1 = false) := by
  constructor
  · intro s
    obtain ⟨n, l, p, d, r, e, ns, sf⟩ := s
    cases n <;> exact ⟨rfl, rfl, rfl, rfl, rfl, rfl⟩
  · refine ⟨rfl, rfl, rfl, rfl, rfl, rfl, ?_, rfl, rfl, rfl, rfl⟩
    show j2 ∉ [j1]
    simp [h]

/-- Witness for C9 at the concrete jobs 1 and 2. -/
theorem cancel_only_queued_witness :
    (∀ s : Sched Nat,
       (cancel s).1 = s.next.isSome ∧
       (cancel s).2.next = none ∧
       (cancel s).2.running = s.running ∧
       (cancel s).2.dispatched = s.dispatched ∧
       (cancel s).2.executed = s.executed ∧
       (cancel s).2.pendingHeld = s.pendingHeld) ∧
    (let s2 := start_run (spawn (initial : Sched Nat) 1).2
     let r2 := spawn s2 2
     let c := cancel r2.2
     let s5 := finish_run c.2 true
     (spawn (initial : Sched Nat) 1).1 = true ∧
     r2.1 = false ∧ c.1 = true ∧ c.2.next = none ∧ c.2.running = [1] ∧
     s5.executed = [1] ∧ 2 ∉ s5.executed ∧ s5.next = none ∧
     s5.dispatched = [] ∧ s5.running = [] ∧ (cancel s5).1 = false) :=
  cancel_only_queued 1 2 (by decide)

/-- Claim C2: (a) in every reachable state of the interleaved semantics at
most one worker is inside the `pending`-guarded section, so executions are
strictly serialized; (b) after any burst of submissions during an execution,
the job dispatched when that execution finishes is exactly the last one
submitted. -/
theorem at_most_one_execution {J : Type} :
    (∀ s : Sched J, Reachable s → s.running.length ≤ 1) ∧
    (∀ (js : List J) (jl : J) (t : J) (s : Sched J),
       s.pendingHeld = true → s.running = [t] → s.dispatched = [] →
       (finish_run (spawnAll s (js ++ [jl])) true).executed
           = s.executed ++ [t] ∧
       (finish_run (spawnAll s (js ++ [jl])) true).dispatched = [jl] ∧
       (finish_run (spawnAll s (js ++ [jl])) true).next = none) := by
  constructor
  · intro s h
    exact (mutexInv_of_reachable h).1
  · intro js jl t s hp hr hd
    rw [spawnAll_busy_last js jl s hp]
    obtain ⟨n, l, p, d, r, e, ns, sf⟩ := s
    cases hp
    cases hr
    cases hd
    exact ⟨rfl, rfl, rfl⟩

/-- Witness for C2: the initial state is reachable and serialized, and a
concrete busy state running job 5 with jobs 2 then 3 submitted dispatches
exactly job 3 on completion. -/
theorem at_most_one_execution_witness :
    (initial : Sched Nat).running.length ≤ 1 ∧
    ((finish_run (spawnAll (⟨none, none, true, [], [5], [], 0, 0⟩ : Sched Nat)
          ([2] ++ [3])) true).executed = [] ++ [5] ∧
     (finish_run (spawnAll (⟨none, none, true, [], [5], [], 0, 0⟩ : Sched Nat)
          ([2] ++ [3])) true).dispatched = [3] ∧
     (finish_run (spawnAll (⟨none, none, true, [], [5], [], 0, 0⟩ : Sched Nat)
          ([2] ++ [3])) true).next = none) :=
  ⟨at_most_one_execution.1 initial Reachable.init,
   at_most_one_execution.2 [2] 3 5 ⟨none, none, true, [], [5], [], 0, 0⟩
     rfl rfl rfl⟩

namespace Status2

/-- Every reachable cache state satisfies the staleness-guard invariant:
`fetch` resets `current.1` whenever it changes the fingerprint, and the
write-back sets `current.1` only under the fingerprint equality check. -/
theorem staleGuardInv_of_reachable {V : Type} {hash : StatusParams → Nat}
    {v0 : V} {s : CacheState V} (h : CReachable hash v0 s) :
    StaleGuardInv s := by
  induction h with
  | init =>
    intro v hv
    exact absurd hv (by simp [init])
  | @step s t hs hstep ih =>
    cases hstep with
    | fetchStep params =>
      intro v hv
      by_cases hc : s.current.fst = hash params
      · simpa [fetch, hc] using ih v (by simpa [fetch, hc] using hv)
      · exact absurd hv (by simp [fetch, hc])
    | completeStep l1 hq l2 res hin =>
      intro v hv
      by_cases hc : s.current.fst = hq
      · have hres : v = res := by
          have := hv
          simp [fetch_helper, hc] at this
          exact this.symm
        subst hres
        simp [fetch_helper, hc]
      · have hv2 : s.current.snd = some v := by
          simpa [fetch_helper, hc] using hv
        simpa [fetch_helper, hc] using ih v hv2

end Status2

/-- Claim C3: at every reachable cache state, `current.1` is `Some` only if
the fetch that wrote it had fingerprint equal to `current.0` at write-back
time (recorded by the ghost `writer`); and a completion whose fingerprint no
longer matches `current.0` leaves `current` unchanged while still
unconditionally overwriting `last`. -/
theorem staleness_guard {V : Type} (hash : StatusParams → Nat) (v0 : V)
    (s : CacheState V) (hr : CReachable hash v0 s) :
    (∀ v, s.current.snd = some v → s.writer = some (s.current.fst, v)) ∧
    (∀ (hq : Nat) (res : V), s.current.fst ≠ hq →
       (fetch_helper s hq res).current.fst = s.current.fst ∧
       (fetch_helper s hq res).current.snd = s.current.snd ∧
       (fetch_helper s hq res).last = res) := by
  refine ⟨staleGuardInv_of_reachable hr, ?_⟩
  intro hq res hne
  refine ⟨?_, ?_, ?_⟩ <;> simp [fetch_helper, hne]

/-- Witness for C3 at a concrete hash function, value type and the freshly
constructed cache. -/
theorem staleness_guard_witness :
    (∀ v : Nat, (init (0 : Nat)).current.snd = some v →
       (init (0 : Nat)).writer = some ((init (0 : Nat)).current.fst, v)) ∧
    (∀ (hq : Nat) (res : Nat), (init (0 : Nat)).current.fst ≠ hq →
       (fetch_helper (init (0 : Nat)) hq res).current.fst
           = (init (0 : Nat)).current.fst ∧
       (fetch_helper (init (0 : Nat)) hq res).current.snd
           = (init (0 : Nat)).current.snd ∧
       (fetch_helper (init (0 : Nat)) hq res).last = res) :=
  staleness_guard (fun p => p.tick) 0 (init 0) CReachable.init

/-- Claim C4: `fetch` with a fingerprint equal to `current.0` returns
`current.1` at once and changes nothing (no background work); with a
different fingerprint it sets `current = (fingerprint, None)`, dispatches
exactly one background computation and returns `None`; a fetch that returns a
cached `Some` value changes nothing; and two fetches with identical
parameters issue exactly one computation. -/
theorem fingerprint_dedup {V : Type} (hash : StatusParams → Nat)
    (s : CacheState V) (params : StatusParams) :
    (s.current.fst = hash params →
       fetch hash s params = (s.current.snd, s)) ∧
    (s.current.fst ≠ hash params →
       (fetch hash s params).1 = none ∧
       (fetch hash s params).2.current.fst = hash params ∧
       (fetch hash s params).2.current.snd = none ∧
       (fetch hash s params).2.inFlight = s.inFlight ++ [hash params]) ∧
    (∀ v, (fetch hash s params).1 = some v → (fetch hash s params).2 = s) ∧
    (fetch hash (fetch hash s params).2 params).2
        = (fetch hash s params).2 ∧
    (s.current.fst ≠ hash params →
       (fetch hash (fetch hash s params).2 params).2.inFlight
         = s.inFlight ++ [hash params]) := by
  refine ⟨?_, ?_, ?_, ?_, ?_⟩
  · intro hc
    simp [fetch, hc]
  · intro hc
    refine ⟨?_, ?_, ?_, ?_⟩ <;> simp [fetch, hc]
  · intro v hv
    by_cases hc : s.current.fst = hash params
    · simp [fetch, hc]
    · exact absurd hv (by simp [fetch, hc])
  · by_cases hc : s.current.fst = hash params
    · simp [fetch, hc]
    · simp [fetch, hc]
  · intro hc
    simp [fetch, hc]

/-- Witness for C4 at a concrete hash function and a cache state whose
current fingerprint differs from the request's. -/
theorem fingerprint_dedup_witness :
    ((⟨⟨0, none⟩, 0, [], none⟩ : CacheState Nat).current.fst
         = (fun p : StatusParams => p.tick + 1) ⟨4, .WorkingDir, true⟩ →
       fetch (fun p : StatusParams => p.tick + 1)
           (⟨⟨0, none⟩, 0, [], none⟩ : CacheState Nat) ⟨4, .WorkingDir, true⟩
         = ((⟨⟨0, none⟩, 0, [], none⟩ : CacheState Nat).current.snd,
            (⟨⟨0, none⟩, 0, [], none⟩ : CacheState Nat))) ∧
    ((⟨⟨0, none⟩, 0, [], none⟩ : CacheState Nat).current.fst
         ≠ (fun p : StatusParams => p.tick + 1) ⟨4, .WorkingDir, true⟩ →
       (fetch (fun p : StatusParams => p.tick + 1)
           (⟨⟨0, none⟩, 0, [], none⟩ : CacheState Nat)
           ⟨4, .WorkingDir, true⟩).1 = none ∧
       (fetch (fun p : StatusParams => p.tick + 1)
           (⟨⟨0, none⟩, 0, [], none⟩ : CacheState Nat)
           ⟨4, .WorkingDir, true⟩).2.current.fst
         = (fun p : StatusParams => p.tick + 1) ⟨4, .WorkingDir, true⟩ ∧
       (fetch (fun p : StatusParams => p.tick + 1)
           (⟨⟨0, none⟩, 0, [], none⟩ : CacheState Nat)
           ⟨4, .WorkingDir, true⟩).2.current.snd = none ∧
       (fetch (fun p : StatusParams => p.tick + 1)
           (⟨⟨0, none⟩, 0, [], none⟩ : CacheState Nat)
           ⟨4, .WorkingDir, true⟩).2.inFlight
         = (⟨⟨0, none⟩, 0, [], none⟩ : CacheState Nat).inFlight
             ++ [(fun p : StatusParams => p.tick + 1) ⟨4, .WorkingDir, true⟩]) ∧
    (∀ v, (fetch (fun p : StatusParams => p.tick + 1)
           (⟨⟨0, none⟩, 0, [], none⟩ : CacheState Nat)
           ⟨4, .WorkingDir, true⟩).1 = some v →
       (fetch (fun p : StatusParams => p.tick + 1)
           (⟨⟨0, none⟩, 0, [], none⟩ : CacheState Nat)
           ⟨4, .WorkingDir, true⟩).2
         = (⟨⟨0, none⟩, 0, [], none⟩ : CacheState Nat)) ∧
    (fetch (fun p : StatusParams => p.tick + 1)
        (fetch (fun p : StatusParams => p.tick + 1)
           (⟨⟨0, none⟩, 0, [], none⟩ : CacheState Nat)
           ⟨4, .WorkingDir, true⟩).2 ⟨4, .WorkingDir, true⟩).2
      = (fetch (fun p : StatusParams => p.tick + 1)
           (⟨⟨0, none⟩, 0, [], none⟩ : CacheState Nat)
           ⟨4, .WorkingDir, true⟩).2 ∧
    ((⟨⟨0, none⟩, 0, [], none⟩ : CacheState Nat).current.fst
         ≠ (fun p : StatusParams => p.tick + 1) ⟨4, .WorkingDir, true⟩ →
       (fetch (fun p : StatusParams => p.tick + 1)
           (fetch (fun p : StatusParams => p.tick + 1)
              (⟨⟨0, none⟩, 0, [], none⟩ : CacheState Nat)
              ⟨4, .WorkingDir, true⟩).2 ⟨4, .WorkingDir, true⟩).2.inFlight
         = (⟨⟨0, none⟩, 0, [], none⟩ : CacheState Nat).inFlight
             ++ [(fun p : StatusParams => p.tick + 1) ⟨4, .WorkingDir, true⟩]) :=
  fingerprint_dedup (fun p => p.tick + 1) ⟨⟨0, none⟩, 0, [], none⟩
    ⟨4, .WorkingDir, true⟩

/-- Claim C5 (amended): when the completion send fails in the single-flight
scheduler, `run_job` releases the mutex and returns the error, which the
dispatching closure logs — the scheduler does not panic and stays usable —
but the trailing `check_for_job` is skipped, so a job queued in `next` during
the failed execution is not started until some later external call runs
`check_for_job`, which then dispatches it; and in the status-cache worker a
failed notification send panics the worker thread via `expect`. -/
theorem send_failure_behavior :
    (∀ (J : Type) (s : Sched J) (task : J) (rest : List J),
       s.running = task :: rest →
       (finish_run s false).pendingHeld = false ∧
       (finish_run s false).next = s.next ∧
       (finish_run s false).dispatched = s.dispatched ∧
       (finish_run s false).running = rest ∧
       (finish_run s false).executed = s.executed ++ [task] ∧
       (finish_run s false).last = some task ∧
       (finish_run s false).sendFailures = s.sendFailures + 1 ∧
       (∀ j, s.next = some j →
          (check_for_job (finish_run s false)).1 = true ∧
          (check_for_job (finish_run s false)).2.dispatched
            = s.dispatched ++ [j])) ∧
    (∀ (V : Type) (c : CacheState V) (hq : Nat) (v : V),
       status_worker c hq (.ok v) false
         = .panicked .sendFailed (fetch_helper c hq v)) := by
  constructor
  · intro J s task rest hr
    obtain ⟨n, l, p, d, r, e, ns, sf⟩ := s
    cases hr
    refine ⟨rfl, rfl, rfl, rfl, rfl, rfl, rfl, ?_⟩
    intro j hj
    cases hj
    exact ⟨rfl, rfl⟩
  · intro V c hq v
    rfl

/-- Witness for C5 (amended) at a concrete busy scheduler state with job 2
queued and at a concrete cache. -/
theorem send_failure_behavior_witness :
    ((finish_run (⟨some 2, none, true, [], [1], [], 0, 0⟩ : Sched Nat)
        false).pendingHeld = false ∧
     (finish_run (⟨some 2, none, true, [], [1], [], 0, 0⟩ : Sched Nat)
        false).next
       = (⟨some 2, none, true, [], [1], [], 0, 0⟩ : Sched Nat).next ∧
     (finish_run (⟨some 2, none, true, [], [1], [], 0, 0⟩ : Sched Nat)
        false).dispatched
       = (⟨some 2, none, true, [], [1], [], 0, 0⟩ : Sched Nat).dispatched ∧
     (finish_run (⟨some 2, none, true, [], [1], [], 0, 0⟩ : Sched Nat)
        false).running = [] ∧
     (finish_run (⟨some 2, none, true, [], [1], [], 0, 0⟩ : Sched Nat)
        false).executed
       = (⟨some 2, none, true, [], [1], [], 0, 0⟩ : Sched Nat).executed
           ++ [1] ∧
     (finish_run (⟨some 2, none, true, [], [1], [], 0, 0⟩ : Sched Nat)
        false).last = some 1 ∧
     (finish_run (⟨some 2, none, true, [], [1], [], 0, 0⟩ : Sched Nat)
        false).sendFailures
       = (⟨some 2, none, true, [], [1], [], 0, 0⟩ : Sched Nat).sendFailures
           + 1 ∧
     (∀ j, (⟨some 2, none, true, [], [1], [], 0, 0⟩ : Sched Nat).next
             = some j →
        (check_for_job (finish_run
           (⟨some 2, none, true, [], [1], [], 0, 0⟩ : Sched Nat) false)).1
          = true ∧
        (check_for_job (finish_run
           (⟨some 2, none, true, [], [1], [], 0, 0⟩ : Sched Nat) false)).2.dispatched
          = (⟨some 2, none, true, [], [1], [], 0, 0⟩ : Sched Nat).dispatched
              ++ [j])) ∧
    status_worker (init (0 : Nat)) 5 (.ok 7) false
      = .panicked .sendFailed (fetch_helper (init 0) 5 7) :=
  ⟨send_failure_behavior.1 Nat ⟨some 2, none, true, [], [1], [], 0, 0⟩ 1 []
     rfl,
   send_failure_behavior.2 Nat (init 0) 5 7⟩

/-- Counterexample to claim C5 as stated: at the concrete scenario — spawn
job 1 (starts), spawn job 2 (queued), then job 1's execution finishes with a
failing completion send — the status-cache worker analogue panics (via
`expect`, not log-and-ignore), and in the scheduler job 2 stays queued in
`next` with no dispatched worker, so it does not run without another external
trigger. -/
theorem send_failure_counterexample :
    status_worker (init (0 : Nat)) 5 (.ok 7) false
      = .panicked .sendFailed (fetch_helper (init 0) 5 7) ∧
    (finish_run (spawn (start_run (spawn (initial : Sched Nat) 1).2) 2).2
       false).next = some 2 ∧
    (finish_run (spawn (start_run (spawn (initial : Sched Nat) 1).2) 2).2
       false).dispatched = [] ∧
    (finish_run (spawn (start_run (spawn (initial : Sched Nat) 1).2) 2).2
       false).running = [] ∧
    (finish_run (spawn (start_run (spawn (initial : Sched Nat) 1).2) 2).2
       false).executed = [1] ∧
    (finish_run (spawn (start_run (spawn (initial : Sched Nat) 1).2) 2).2
       false).sendFailures = 1 :=
  ⟨rfl, rfl, rfl, rfl, rfl, rfl⟩

/-- Claim C6 (amended): in `AsyncPush`, a failed push's error is stored by
`set_result` as `Some` of its message — surfaced through `last_result`, and a
success stores `None` — with the request slot untouched; but in `AsyncStatus2`
a failing status computation is not stored anywhere: the worker thread panics
via `expect` before any write-back, so the status path surfaces no job
error. -/
theorem job_error_paths :
    (∀ (s : AsyncPushState) (e : String),
       (set_result s (.error e)).last_result = some e ∧
       (set_result s (.error e)).state = s.state) ∧
    (∀ s : AsyncPushState, (set_result s (.ok ())).last_result = none) ∧
    (∀ (V : Type) (c : CacheState V) (hq : Nat) (e : String)
       (sendOk : Bool),
       status_worker c hq (.error e) sendOk = .panicked .fetchFailed c) := by
  refine ⟨?_, ?_, ?_⟩
  · intro s e
    exact ⟨rfl, rfl⟩
  · intro s
    rfl
  · intro V c hq e sendOk
    rfl

/-- Counterexample to claim C6 as stated: a failing status scan (a job error
of the wrapped blocking operation) does not get stored as a result payload —
the `AsyncStatus2` worker panics via `expect("failed to fetch status")`,
leaving the cache untouched, so the failure is not surfaced through any
`last_result`/`take_last` path. -/
theorem job_error_counterexample :
    status_worker (init (0 : Nat)) 1 (.error repoErrMsg) true
      = .panicked .fetchFailed (init 0) :=
  rfl

namespace Push

/-- Helper: extending a progress-only prefix by one relayed event keeps it
progress-only. -/
theorem relay_prefix_cons (e : ProgressNotification) (pre : List PushEvent)
    (hmem : ∀ x ∈ pre,
      (∃ p, x = PushEvent.progressWrite p) ∨ x = PushEvent.progressNotify) :
    ∀ x ∈ PushEvent.progressWrite e :: PushEvent.progressNotify :: pre,
      (∃ p, x = PushEvent.progressWrite p) ∨ x = PushEvent.progressNotify := by
  intro x hx
  rcases List.mem_cons.mp hx with rfl | hx
  · exact Or.inl ⟨e, rfl⟩
  rcases List.mem_cons.mp hx with rfl | hx
  · exact Or.inr rfl
  · exact hmem x hx

/-- The relay loop's trace is a progress-only prefix followed by exactly one
exit event. -/
theorem relay_trace_shape :
    ∀ es : List ProgressNotification,
      ∃ pre : List PushEvent,
        relay_trace es = pre ++ [PushEvent.relayExit] ∧
        ∀ x ∈ pre,
          (∃ p, x = PushEvent.progressWrite p) ∨ x = PushEvent.progressNotify := by
  intro es
  induction es with
  | nil => exact ⟨[], rfl, by simp⟩
  | cons e rest ih =>
    obtain ⟨pre, hpre, hmem⟩ := ih
    cases e with
    | Done => exact ⟨[], rfl, by simp⟩
    | UpdateTips name a b =>
      exact ⟨PushEvent.progressWrite (ProgressNotification.UpdateTips name a b)
               :: PushEvent.progressNotify :: pre,
             by simp [relay_trace, hpre], relay_prefix_cons _ pre hmem⟩
    | Transfer objects total_objects =>
      exact ⟨PushEvent.progressWrite
               (ProgressNotification.Transfer objects total_objects)
               :: PushEvent.progressNotify :: pre,
             by simp [relay_trace, hpre], relay_prefix_cons _ pre hmem⟩
    | PushTransfer current total bytes =>
      exact ⟨PushEvent.progressWrite
               (ProgressNotification.PushTransfer current total bytes)
               :: PushEvent.progressNotify :: pre,
             by simp [relay_trace, hpre], relay_prefix_cons _ pre hmem⟩
    | Packing stage total current =>
      exact ⟨PushEvent.progressWrite
               (ProgressNotification.Packing stage total current)
               :: PushEvent.progressNotify :: pre,
             by simp [relay_trace, hpre], relay_prefix_cons _ pre hmem⟩

end Push

/-- Claim C7: for every push, the relay thread observes the terminal `Done`
event and exits before the result is stored, the request slot cleared and
completion reported: the worker trace decomposes as progress events only,
then the relay exit, then result storage, request clearing and the completion
notification — no progress write or progress notification after completion is
visible. -/
theorem progress_terminal_ordering (events : List ProgressNotification) :
    ∃ pre : List PushEvent,
      worker_trace events
        = pre ++ [PushEvent.relayExit, PushEvent.resultStored,
                  PushEvent.requestCleared, PushEvent.completionNotify] ∧
      ∀ x ∈ pre,
        (∃ p, x = PushEvent.progressWrite p) ∨ x = PushEvent.progressNotify := by
  obtain ⟨pre, hpre, hmem⟩ :=
    relay_trace_shape (events ++ [ProgressNotification.Done])
  refine ⟨pre, ?_, hmem⟩
  simp [worker_trace, hpre]

/-- Witness for C7 at a concrete event sequence. -/
theorem progress_terminal_ordering_witness :
    ∃ pre : List PushEvent,
      worker_trace [ProgressNotification.Transfer 1 2]
        = pre ++ [PushEvent.relayExit, PushEvent.resultStored,
                  PushEvent.requestCleared, PushEvent.completionNotify] ∧
      ∀ x ∈ pre,
        (∃ p, x = PushEvent.progressWrite p) ∨ x = PushEvent.progressNotify :=
  progress_terminal_ordering [ProgressNotification.Transfer 1 2]

namespace Push

/-- `PushExclusionInv` holds of a fresh `AsyncPush`. -/
theorem pushInv_initial : PushExclusionInv pushInit :=
  ⟨by simp [pushInit], fun _ => rfl⟩

/-- Every interleaved step preserves `PushExclusionInv`: `request` spawns a
worker only when the request slot is empty (and occupies it first), and a
worker clears the slot when it finishes. -/
theorem pushInv_step {s t : AsyncPushState} (h : PStep s t)
    (ih : PushExclusionInv s) : PushExclusionInv t := by
  cases h with
  | requestStep params =>
    cases hs : s.state with
    | some ps =>
      have : request s params = (s, false) := by
        simp [request, hs]
      rw [this]
      exact ih
    | none =>
      have hempty : s.runningThreads = [] := ih.2 hs
      have : request s params
          = ({ s with
                 state := some ⟨params⟩,
                 progress := none,
                 runningThreads := s.runningThreads ++ [params] }, true) := by
        simp [request, set_request, hs]
      rw [this]
      exact ⟨by simp [hempty], by intro hcontra; simp at hcontra⟩
  | progressStep p hne =>
    exact ih
  | workerDone p rest res hrun =>
    have hlen : (p :: rest).length ≤ 1 := hrun ▸ ih.1
    have hrest : rest = [] := by
      cases rest with
      | nil => rfl
      | cons a l => simp at hlen
    exact ⟨by simp [hrest], by intro _; simp [hrest]⟩

/-- Every reachable `AsyncPush` state has at most one worker thread. -/
theorem pushInv_of_reachable {s : AsyncPushState} (h : PReachable s) :
    PushExclusionInv s := by
  induction h with
  | init => exact pushInv_initial
  | step _ hstep ih => exact pushInv_step hstep ih

/-- Folding one more completed push through `set_result`. -/
theorem run_pushes_append (rs : List (Except String Unit))
    (r : Except String Unit) (s : AsyncPushState) :
    run_pushes s (rs ++ [r]) = set_result (run_pushes s rs) r := by
  simp [run_pushes, List.foldl_append]

end Push

/-- Claim C8: at most one push worker is active at a time per `AsyncPush`
instance, and a `request` arriving while one is running is rejected — the
state is returned bit-for-bit unchanged (nothing of the rejected request is
merged) and no work is started. -/
theorem push_exclusion :
    (∀ s : AsyncPushState, PReachable s →
       s.runningThreads.length ≤ 1 ∧
       (s.state = none → s.runningThreads = [])) ∧
    (∀ (s : AsyncPushState) (params : PushRequest),
       s.state.isSome = true → request s params = (s, false)) := by
  constructor
  · intro s h
    exact pushInv_of_reachable h
  · intro s params h
    have hs : ∃ ps, s.state = some ps := by
      cases hstate : s.state with
      | none => rw [hstate] at h; exact absurd h (by simp)
      | some ps => exact ⟨ps, rfl⟩
    obtain ⟨ps, hps⟩ := hs
    simp [request, hps]

/-- Witness for C8: the fresh state is reachable and serialized, and a
request against an occupied slot is rejected unchanged. -/
theorem push_exclusion_witness :
    (pushInit.runningThreads.length ≤ 1 ∧
     (pushInit.state = none → pushInit.runningThreads = [])) ∧
    request (⟨some ⟨sampleRequest⟩, none, none, [sampleRequest]⟩ :
        AsyncPushState) sampleRequest
      = ((⟨some ⟨sampleRequest⟩, none, none, [sampleRequest]⟩ :
          AsyncPushState), false) :=
  ⟨push_exclusion.1 pushInit PReachable.init,
   push_exclusion.2 ⟨some ⟨sampleRequest⟩, none, none, [sampleRequest]⟩
     sampleRequest rfl⟩

/-- Claim C10: `last_result` is `None` on a fresh `AsyncPush` and after a
sequence of completed pushes whose most recent one succeeded; it is
`Some msg` exactly when the most recently completed push failed with message
`msg` — every completed push overwrites the stored result, so a later success
clears a previous error, and success is indistinguishable from never having
pushed. -/
theorem last_result_lifecycle :
    pushInit.last_result = none ∧
    (∀ (s : AsyncPushState) (e : String),
       (set_result s (.error e)).last_result = some e) ∧
    (∀ s : AsyncPushState, (set_result s (.ok ())).last_result = none) ∧
    (∀ s : AsyncPushState, (run_pushes s []).last_result = s.last_result) ∧
    (∀ (s : AsyncPushState) (rs : List (Except String Unit)) (e : String),
       (run_pushes s (rs ++ [.error e])).last_result = some e) ∧
    (∀ (s : AsyncPushState) (rs : List (Except String Unit)),
       (run_pushes s (rs ++ [.ok ()])).last_result = none) := by
  refine ⟨rfl, ?_, ?_, ?_, ?_, ?_⟩
  · intro s e
    rfl
  · intro s
    rfl
  · intro s
    rfl
  · intro s rs e
    rw [run_pushes_append]
    rfl
  · intro s rs
    rw [run_pushes_append]
    rfl
